import Mathlib

/-!
Verification development for a Tetris-style game engine.

The definitions below are a shallow embedding of the Python sources
`src/shape.py`, `src/gameboard.py` and `src/controller.py`:

* a Python `List[List[int]]` matrix becomes `Grid := List (List Int)`;
* fallible statements (attribute errors, index errors, popping an empty
  queue, a loop that may not terminate) are modelled in `Option`, where
  `none` means the Python call raises (or never returns) instead of
  returning normally;
* in-place mutation becomes explicit state passing: each method takes the
  receiver and returns the updated receiver (inside `Option` when the
  method can raise);
* the random number generator is modelled as an explicit parameter: any
  method that calls `generate_new_shape` receives the freshly generated
  shape as an argument.

Python list reads that the code performs only after an explicit bounds
check (`self.grid[board_row][board_col]` guarded by comparisons against
`num_rows`/`num_cols`) are modelled with the total `getD`-style helpers;
for boards whose grid has exactly the declared dimensions — the only
boards the program ever builds — this agrees with Python semantics.
-/

namespace Tetris

/-- Occupancy matrix: rows of integer cells, `0` = empty, nonzero = occupied. -/
abbrev Grid := List (List Int)

/-- Reads `g[i][j]`, returning `none` when either index is out of range
(a Python `IndexError`). -/
def getCell (g : Grid) (i j : Nat) : Option Int :=
  match g.get? i with
  | none => none
  | some row => row.get? j

/-- Writes `g[i][j] = v`, returning `none` when either index is out of range
(a Python `IndexError`). -/
def setCell (g : Grid) (i j : Nat) (v : Int) : Option Grid :=
  match g.get? i with
  | none => none
  | some row => if j < row.length then some (g.set i (row.set j v)) else none

/-- Total write used where the source guards the write by an explicit bounds
check against the board dimensions: `g[r][c] = v` for `0 ≤ r`, `0 ≤ c`. -/
def setCellD (g : Grid) (r c : Int) (v : Int) : Grid :=
  g.set r.toNat ((g.getD r.toNat []).set c.toNat v)

/-- Total read used where the source guards the read by an explicit bounds
check against the board dimensions: `g[r][c]` for `0 ≤ r`, `0 ≤ c`. -/
def cellAt (g : Grid) (r c : Int) : Int :=
  (g.getD r.toNat []).getD c.toNat 0

/-- Row-major list of all index pairs `(i, j)` of a matrix, mirroring the
nested `for row_idx in range(len(m)): for col_idx in range(len(m[row_idx]))`
loops that `can_place`, `place_shape` and `remove_shape` all use. -/
def cellPairs (m : Grid) : List (Nat × Nat) :=
  (List.range m.length).flatMap fun ri =>
    (List.range (m.getD ri []).length).map fun ci => (ri, ci)

/-- Embedding of `src/shape.py`, class `Shape`: the occupancy matrix, the
rotation counter, the top-left anchor on the board, and the colour key.
These are exactly the attributes `Shape.__init__` creates. -/
structure Shape where
  matrix : Grid
  rotation_state : Int
  row_position : Int
  col_position : Int
  key : Option Int
deriving DecidableEq

/-- Key-derivation loop of `Shape.__init__`: the first nonzero value of the
matrix in row-major order, `none` when every cell is zero. -/
def findKey : Grid → Option Int
  | [] => none
  | row :: rest =>
    match row.find? (fun v => v != 0) with
    | some v => some v
    | none => findKey rest

/-- Embedding of `Shape.__init__(matrix)`: stores the matrix, zeroes the
rotation counter and the position, and derives `key`. The constructor
performs no validation and has no failure path. Note that it defines the
attribute `key` and never an attribute named `color_key`. -/
def Shape.init (m : Grid) : Shape :=
  { matrix := m, rotation_state := 0, row_position := 0, col_position := 0,
    key := findKey m }

/-- Reading the attribute `shape.color_key`, as `GameBoard.place_shape`
does: `Shape.__init__` never defines an attribute of that name (it defines
`key`), so in Python the read raises `AttributeError`; here it is `none`. -/
def attrColorKey (_s : Shape) : Option Int := none

/-- Index pairs `(i, j)` with `0 ≤ i ≤ j < n`, in the order the transpose
loops of `Shape.rotate` visit them
(`for i in range(n): for j in range(i, n)`). -/
def swapPairs (n : Nat) : List (Nat × Nat) :=
  (List.range n).flatMap fun i => ((List.range n).drop i).map fun j => (i, j)

/-- One iteration of the transpose loop of `Shape.rotate`:
`m[i][j], m[j][i] = m[j][i], m[i][j]` for `p = (i, j)`, with the two reads
performed first and the two writes performed left to right; `none` when an
index is out of range (Python `IndexError` on a non-square matrix). -/
def swapStep (g : Grid) (p : Nat × Nat) : Option Grid :=
  match getCell g p.2 p.1, getCell g p.1 p.2 with
  | some a, some b =>
    match setCell g p.1 p.2 a with
    | none => none
    | some g1 => setCell g1 p.2 p.1 b
  | _, _ => none

/-- Transpose phase of `Shape.rotate`: the nested swap loops over the
`len(matrix) × len(matrix)` upper triangle. -/
def transposePhase (g : Grid) : Option Grid :=
  (swapPairs g.length).foldlM swapStep g

/-- Embedding of `Shape.rotate()`: transpose in place, reverse every row,
increment `rotation_state` modulo 4. `none` when the transpose loops raise
`IndexError` (possible only on a non-square matrix). -/
def Shape.rotate (s : Shape) : Option Shape :=
  match transposePhase s.matrix with
  | none => none
  | some g1 =>
    some { s with matrix := g1.map List.reverse,
                  rotation_state := (s.rotation_state + 1) % 4 }

/-- Embedding of `src/gameboard.py`, class `GameBoard`: the stored
dimensions and the grid. -/
structure GameBoard where
  num_rows : Int
  num_cols : Int
  grid : Grid
deriving DecidableEq

/-- Embedding of `GameBoard.__init__(num_rows, num_cols)` (defaults 20, 10):
a `num_rows × num_cols` grid of zeroes. -/
def GameBoard.init (num_rows num_cols : Int) : GameBoard :=
  { num_rows := num_rows, num_cols := num_cols,
    grid := List.replicate num_rows.toNat (List.replicate num_cols.toNat 0) }

/-- Test performed per matrix cell by `can_place`, `place_shape` and
`remove_shape` alike: the cell is occupied (nonzero) and its board
coordinate lies inside `[0, num_rows) × [0, num_cols)`. -/
def occupiedInBounds (b : GameBoard) (s : Shape) (p : Nat × Nat) : Bool :=
  ((s.matrix.getD p.1 []).getD p.2 0 != 0) &&
  (decide (0 ≤ s.row_position + (p.1 : Int)) &&
   decide (s.row_position + (p.1 : Int) < b.num_rows) &&
   decide (0 ≤ s.col_position + (p.2 : Int)) &&
   decide (s.col_position + (p.2 : Int) < b.num_cols))

/-- Embedding of `GameBoard.can_place(shape)`: every occupied cell of the
shape matrix, offset by the shape position, must be in bounds and land on a
zero grid cell. The Python early `return False` over nested loops is the
`List.all` of the per-cell condition. Read-only: no state is returned. -/
def GameBoard.can_place (b : GameBoard) (s : Shape) : Bool :=
  (cellPairs s.matrix).all fun p =>
    !((s.matrix.getD p.1 []).getD p.2 0 != 0) ||
      (occupiedInBounds b s p &&
       (cellAt b.grid (s.row_position + (p.1 : Int)) (s.col_position + (p.2 : Int)) == 0))

/-- One iteration of the `place_shape` loops: for an occupied, in-bounds
cell the source executes `self.grid[...] = shape.color_key`, whose
right-hand side raises `AttributeError` (see `attrColorKey`); all other
cells are skipped. -/
def placeCell (s : Shape) (b : GameBoard) (p : Nat × Nat) : Option GameBoard :=
  if occupiedInBounds b s p then
    match attrColorKey s with
    | none => none
    | some v =>
      some { b with grid := setCellD b.grid (s.row_position + (p.1 : Int))
                                            (s.col_position + (p.2 : Int)) v }
  else some b

/-- Embedding of `GameBoard.place_shape(shape)`: the row-major loop over the
shape matrix, aborting (exception) at the first cell whose write is
attempted. -/
def GameBoard.place_shape (b : GameBoard) (s : Shape) : Option GameBoard :=
  (cellPairs s.matrix).foldlM (placeCell s) b

/-- One iteration of the `remove_shape` loops: occupied, in-bounds cells are
zeroed, everything else is skipped. No failure path. -/
def removeCell (s : Shape) (b : GameBoard) (p : Nat × Nat) : GameBoard :=
  if occupiedInBounds b s p then
    { b with grid := setCellD b.grid (s.row_position + (p.1 : Int))
                                     (s.col_position + (p.2 : Int)) 0 }
  else b

/-- Embedding of `GameBoard.remove_shape(shape)`: the row-major loop over
the shape matrix, zeroing every occupied in-bounds cell. -/
def GameBoard.remove_shape (b : GameBoard) (s : Shape) : GameBoard :=
  (cellPairs s.matrix).foldl (removeCell s) b

/-- Full-row test of `clear_rows`:
`all(self.grid[row_idx][col] != 0 for col in range(self.num_cols))`. -/
def fullRow (cols : Int) (row : List Int) : Bool :=
  (List.range cols.toNat).all fun c => row.getD c 0 != 0

/-- While-loop of `clear_rows`, fuel-indexed. The loop variable `row_idx`
is carried as `idxPlusOne = row_idx + 1` so that the `row_idx ≥ 0` guard
becomes a match on zero. A full row at `row_idx` is deleted, an all-zero
row is inserted at the top and the same index is re-examined; otherwise the
index moves up. Exhausted fuel (`none`) models non-termination, which the
chosen fuel makes unreachable for every board with at least one column. -/
def clearLoop (cols : Int) : Nat → Grid → Nat → Nat → Option (Nat × Grid)
  | 0, _, _, _ => none
  | _ + 1, g, 0, cleared => some (cleared, g)
  | fuel + 1, g, idx + 1, cleared =>
    if fullRow cols (g.getD idx []) then
      clearLoop cols fuel (List.replicate cols.toNat 0 :: g.eraseIdx idx) (idx + 1) (cleared + 1)
    else
      clearLoop cols fuel g idx cleared

/-- Embedding of `GameBoard.clear_rows()`: runs the bottom-to-top sweep
starting at `row_idx = num_rows - 1` and returns the number of cleared rows
together with the updated board. -/
def GameBoard.clear_rows (b : GameBoard) : Option (Nat × GameBoard) :=
  match clearLoop b.num_cols (b.num_rows.toNat + b.grid.countP (fullRow b.num_cols) + 1)
          b.grid b.num_rows.toNat 0 with
  | none => none
  | some (k, g) => some (k, { b with grid := g })

/-- Embedding of the fields of `src/controller.py`, class `Controller`.
The queue is the `deque` of upcoming shapes. -/
structure ControllerState where
  game_board : GameBoard
  active_shape : Option Shape
  points : Int
  level : Int
  initial_level : Int
  total_rows_cleared : Int
  shape_queue : List Shape
deriving DecidableEq

/-- Scoring table of `Controller.update_points`:
`{1: 40, 2: 100, 3: 300, 4: 1200}.get(k, 0)`. -/
def points_table (k : Int) : Int :=
  if k = 1 then 40 else if k = 2 then 100 else if k = 3 then 300
  else if k = 4 then 1200 else 0

/-- Embedding of `Controller.update_points(num_rows_cleared)`: adds the
cleared count to the running total and adds `table(k) * level` to the
score, using the level current at the call. -/
def Controller.update_points (st : ControllerState) (k : Int) : ControllerState :=
  { st with total_rows_cleared := st.total_rows_cleared + k,
            points := st.points + points_table k * st.level }

/-- Embedding of `Controller.update_level()`:
`level = total_rows_cleared // 10 + initial_level`, with Python floor
division (`Int.fdiv`). -/
def Controller.update_level (st : ControllerState) : ControllerState :=
  { st with level := Int.fdiv st.total_rows_cleared 10 + st.initial_level }

/-- Embedding of `Controller.spawn_new_shape()`. The freshly generated
random shape appended to the queue is passed in as `fresh`. `none` covers
the two raising paths: popping an empty queue (`IndexError`) and the
`place_shape` attribute error. Python's `copy.deepcopy` of the dequeued
shape is the identity on the immutable model. -/
def Controller.spawn_new_shape (st : ControllerState) (fresh : Shape) :
    Option (Bool × ControllerState) :=
  match st.shape_queue with
  | [] => none
  | h :: t =>
    let st1 := { st with active_shape := some h, shape_queue := t ++ [fresh] }
    if st1.game_board.can_place h then
      match st1.game_board.place_shape h with
      | none => none
      | some b => some (true, { st1 with game_board := b })
    else
      some (false, st1)

/-- Embedding of `Controller.rotate()`: remove the active shape from the
board, snapshot its matrix, rotate, and either commit (when `can_place`
accepts the rotated matrix) or restore the snapshot; either way the shape
is re-placed on the board. The snapshot restore does not touch
`rotation_state`, exactly as in the source. -/
def Controller.rotate (st : ControllerState) : Option (Bool × ControllerState) :=
  match st.active_shape with
  | none => some (false, st)
  | some s =>
    let b1 := st.game_board.remove_shape s
    let original_matrix := s.matrix
    match s.rotate with
    | none => none
    | some s1 =>
      if b1.can_place s1 then
        match b1.place_shape s1 with
        | none => none
        | some b2 => some (true, { st with game_board := b2, active_shape := some s1 })
      else
        let s2 := { s1 with matrix := original_matrix }
        match b1.place_shape s2 with
        | none => none
        | some b2 => some (false, { st with game_board := b2, active_shape := some s2 })

/-- Direction dispatch of `Controller.move`: the `(changein_row,
changein_col)` pair, or `none` for the early `return False` on an
unrecognised direction string. -/
def moveDelta : String → Option (Int × Int)
  | "left" => some (0, -1)
  | "right" => some (0, 1)
  | "down" => some (1, 0)
  | _ => none

/-- Embedding of `Controller.move(direction)`: remove the active shape,
shift its position by the direction delta, and either commit (when
`can_place` accepts the shifted position) or shift back; either way the
shape is re-placed on the board. -/
def Controller.move (st : ControllerState) (direction : String) :
    Option (Bool × ControllerState) :=
  match st.active_shape with
  | none => some (false, st)
  | some s =>
    match moveDelta direction with
    | none => some (false, st)
    | some (dr, dc) =>
      let b1 := st.game_board.remove_shape s
      let s1 := { s with row_position := s.row_position + dr,
                         col_position := s.col_position + dc }
      if b1.can_place s1 then
        match b1.place_shape s1 with
        | none => none
        | some b2 => some (true, { st with game_board := b2, active_shape := some s1 })
      else
        let s2 := { s1 with row_position := s1.row_position - dr,
                            col_position := s1.col_position - dc }
        match b1.place_shape s2 with
        | none => none
        | some b2 => some (false, { st with game_board := b2, active_shape := some s2 })

/-- Embedding of `Controller.tick()`: try `move("down")`; on failure this is
the lock event — clear rows, update points, update level, spawn the next
shape (with `fresh` standing for the random shape the spawn appends) — and
the game continues unless the spawn reports game over. -/
def Controller.tick (st : ControllerState) (fresh : Shape) :
    Option (Bool × ControllerState) :=
  match Controller.move st ("down") with
  | none => none
  | some (moved, st1) =>
    if moved then some (true, st1)
    else
      match st1.game_board.clear_rows with
      | none => none
      | some (k, b) =>
        let st2 := Controller.update_level
          (Controller.update_points { st1 with game_board := b } (k : Int))
        match Controller.spawn_new_shape st2 fresh with
        | none => none
        | some (spawned, st3) =>
          if spawned then some (true, st3) else some (false, st3)

/-- Modelled from the spec: the column at which a freshly spawned piece
would sit if it were horizontally centered on the board, as §4.3 of the
spec asserts of `spawnNewShape` («top row, horizontally centered»). This
definition follows the spec's words; it exists to be compared with what
`Controller.spawn_new_shape` actually does to the spawn position. -/
def specCenteredCol (numCols width : Int) : Int := (numCols - width) / 2

/-! Concrete states used by counterexamples and witnesses. -/

/-- Shape whose single occupied cell sits far above the board, so that
board operations on it touch no in-bounds cell. -/
def c5_shape : Shape :=
  { matrix := [[9]], rotation_state := 0, row_position := -5, col_position := 0,
    key := some 9 }

/-- Engine state whose active shape is `c5_shape` on an empty 2×2 board. -/
def c5_state : ControllerState :=
  { game_board := GameBoard.init 2 2, active_shape := some c5_shape, points := 0,
    level := 1, initial_level := 1, total_rows_cleared := 0, shape_queue := [] }

/-- The state `Controller.rotate` actually produces from `c5_state` when it
returns `false`: identical except for the incremented `rotation_state`. -/
def c5_rotated : ControllerState :=
  { c5_state with active_shape := some { c5_shape with rotation_state := 1 } }

/-- Single-cell shape, key 5, at the origin. -/
def c2_block : Shape := Shape.init [[5]]

/-- Single-cell shape, key 6, at the origin. -/
def c2_fresh : Shape := Shape.init [[6]]

/-- Engine state on a 2×2 board whose spawn cell `(0,0)` is already
occupied (value 9) and whose queue holds `c2_block`. -/
def c2_pre : ControllerState :=
  { game_board := { num_rows := 2, num_cols := 2, grid := [[9,0],[0,0]] },
    active_shape := none, points := 0, level := 1, initial_level := 1,
    total_rows_cleared := 0, shape_queue := [c2_block] }

/-- The game-over state: `spawn_new_shape` on `c2_pre` returns `false` and
leaves exactly this state (active shape dequeued but not placed). -/
def c2_over : ControllerState :=
  { c2_pre with active_shape := some c2_block, shape_queue := [c2_fresh] }

/-- The I piece exactly as listed in the `SHAPES` table of
`src/controller.py`, as produced by the `Shape` constructor. -/
def c6_I : Shape := Shape.init [[0,0,0,0],[1,1,1,1],[0,0,0,0],[0,0,0,0]]

/-- Fully occupied 10×10 grid. -/
def c6_grid : Grid :=
  [1,1,1,1,1,1,1,1,1,1].map fun v => [(v : Int),v,v,v,v,v,v,v,v,v]

/-- Single-cell shape, key 8, at the origin. -/
def c6_fresh : Shape := Shape.init [[8]]

/-- Engine state on a fully blocked 10-column board whose queue head is the
I piece, so the next spawn is rejected. -/
def c6_pre : ControllerState :=
  { game_board := { num_rows := 10, num_cols := 10, grid := c6_grid },
    active_shape := none, points := 0, level := 1, initial_level := 1,
    total_rows_cleared := 0, shape_queue := [c6_I] }

/-- The state produced by the rejected spawn from `c6_pre`. -/
def c6_over : ControllerState :=
  { c6_pre with active_shape := some c6_I, shape_queue := [c6_fresh] }

/-- Board of 3 rows × 2 columns whose bottom two rows are full. -/
def c7_board : GameBoard :=
  { num_rows := 3, num_cols := 2, grid := [[1,0],[2,2],[3,3]] }

/-- Engine counters at level 3, as in the spec's scoring scenario. -/
def c8_state : ControllerState :=
  { game_board := GameBoard.init 20 10, active_shape := none, points := 0,
    level := 3, initial_level := 1, total_rows_cleared := 5, shape_queue := [] }

/-! Lemmas about `place_shape` and `remove_shape`. -/

/-- A `place_shape` iteration either raises (occupied in-bounds cell — the
`color_key` read) or leaves the board untouched. -/
lemma placeCell_eq (s : Shape) (b : GameBoard) (p : Nat × Nat) :
    placeCell s b p = if occupiedInBounds b s p then none else some b := by
  simp [placeCell, attrColorKey]

/-- The `place_shape` loop returns normally iff no cell triggers the
`color_key` read, and then the board is unchanged. -/
lemma foldlM_placeCell_eq_some (s : Shape) (l : List (Nat × Nat)) (b b' : GameBoard) :
    l.foldlM (placeCell s) b = some b' ↔
      b' = b ∧ ∀ p ∈ l, occupiedInBounds b s p = false := by
  induction l generalizing b with
  | nil =>
    constructor
    · intro h
      rw [List.foldlM_nil] at h
      exact ⟨(Option.some.inj h).symm, by simp⟩
    · rintro ⟨rfl, -⟩
      rfl
  | cons p t ih =>
    rw [List.foldlM_cons, placeCell_eq]
    cases hocc : occupiedInBounds b s p with
    | true => simp [hocc]
    | false => simp [hocc, ih]

/-- Characterisation of `place_shape`: it completes without raising iff the
shape has no occupied in-bounds cell at its position, in which case it
writes nothing. -/
lemma place_shape_some_iff (b : GameBoard) (s : Shape) (b' : GameBoard) :
    b.place_shape s = some b' ↔
      b' = b ∧ ∀ p ∈ cellPairs s.matrix, occupiedInBounds b s p = false :=
  foldlM_placeCell_eq_some ..

/-- The `remove_shape` loop writes nothing when no cell is both occupied
and in bounds. -/
lemma foldl_removeCell_noop (s : Shape) (l : List (Nat × Nat)) (b : GameBoard)
    (h : ∀ p ∈ l, occupiedInBounds b s p = false) :
    l.foldl (removeCell s) b = b := by
  induction l with
  | nil => rfl
  | cons p t ih =>
    have hp := h p (by simp)
    rw [List.foldl_cons, removeCell, if_neg (by simp [hp])]
    exact ih fun q hq => h q (by simp [hq])

/-- `remove_shape` is the identity when the shape has no occupied in-bounds
cell at its position. -/
lemma remove_shape_noop (b : GameBoard) (s : Shape)
    (h : ∀ p ∈ cellPairs s.matrix, occupiedInBounds b s p = false) :
    b.remove_shape s = b :=
  foldl_removeCell_noop s (cellPairs s.matrix) b h

/-- A `remove_shape` iteration never changes the board dimensions. -/
lemma removeCell_dims (s : Shape) (b : GameBoard) (p : Nat × Nat) :
    (removeCell s b p).num_rows = b.num_rows ∧
      (removeCell s b p).num_cols = b.num_cols := by
  unfold removeCell; split <;> simp

/-- `remove_shape` never changes the board dimensions. -/
lemma remove_shape_dims (b : GameBoard) (s : Shape) :
    (b.remove_shape s).num_rows = b.num_rows ∧
      (b.remove_shape s).num_cols = b.num_cols := by
  unfold GameBoard.remove_shape
  generalize cellPairs s.matrix = l
  induction l generalizing b with
  | nil => exact ⟨rfl, rfl⟩
  | cons p t ih =>
    rw [List.foldl_cons]
    exact ⟨(ih (removeCell s b p)).1.trans (removeCell_dims s b p).1,
           (ih (removeCell s b p)).2.trans (removeCell_dims s b p).2⟩

/-- The occupied-in-bounds test only reads the board dimensions and the
shape matrix and position. -/
lemma occupiedInBounds_congr {b b' : GameBoard} {s s' : Shape} (p : Nat × Nat)
    (hr : b'.num_rows = b.num_rows) (hc : b'.num_cols = b.num_cols)
    (hm : s'.matrix = s.matrix) (hrp : s'.row_position = s.row_position)
    (hcp : s'.col_position = s.col_position) :
    occupiedInBounds b' s' p = occupiedInBounds b s p := by
  simp [occupiedInBounds, hr, hc, hm, hrp, hcp]

/-- C1: the claim says `place_shape` writes the shape's colour key into
every in-bounds occupied cell. The code instead reads the attribute
`shape.color_key`, which `Shape.__init__` never defines (it defines `key`),
so the very first such write raises `AttributeError`: placing the O piece
from the `SHAPES` table on the empty default 20×10 board raises instead of
writing anything. -/
theorem place_shape_reads_missing_color_key_attr :
    GameBoard.can_place (GameBoard.init 20 10) (Shape.init [[2,2],[2,2]]) = true ∧
    GameBoard.place_shape (GameBoard.init 20 10) (Shape.init [[2,2],[2,2]]) = none := by
  constructor
  · decide
  · decide

/-- C4: the claim says `place_shape` then `remove_shape` at a `can_place`
position restores the board. On the code the round trip cannot complete:
already the `place_shape` half raises `AttributeError` (the `color_key`
read) at any position with an occupied in-bounds cell — here a single-cell
shape on an empty 2×2 board which `can_place` accepts. -/
theorem place_then_remove_blocked_by_attribute_error :
    GameBoard.can_place (GameBoard.init 2 2) (Shape.init [[7]]) = true ∧
    GameBoard.place_shape (GameBoard.init 2 2) (Shape.init [[7]]) = none := by
  constructor
  · decide
  · decide

/-- C10: evaluation of both operations at in-bounds and out-of-bounds
positions of a single-cell shape on a 1×1 board. `remove_shape` indeed
never raises and silently skips out-of-bounds cells, and `place_shape`
also silently skips out-of-bounds cells (its out-of-bounds call returns
the board unchanged); but the in-bounds `place_shape` call raises
`AttributeError` (the `color_key` read), contradicting the claim that
neither operation ever raises. -/
theorem place_remove_bounds_guarded_eval :
    GameBoard.place_shape (GameBoard.init 1 1) (Shape.init [[5]]) = none ∧
    GameBoard.remove_shape (GameBoard.init 1 1) (Shape.init [[5]]) = GameBoard.init 1 1 ∧
    GameBoard.place_shape (GameBoard.init 1 1)
      { Shape.init [[5]] with row_position := 5, col_position := 5 } =
      some (GameBoard.init 1 1) ∧
    GameBoard.remove_shape (GameBoard.init 1 1)
      { Shape.init [[5]] with row_position := 5, col_position := 5 } =
      GameBoard.init 1 1 := by
  refine ⟨by decide, by decide, by decide, by decide⟩

/-- Fields of a successful `Shape.rotate`: everything except the matrix is
carried over, with `rotation_state` incremented modulo 4. -/
lemma rotate_some_fields (s s1 : Shape) (h : s.rotate = some s1) :
    s1.rotation_state = (s.rotation_state + 1) % 4 ∧
      s1.row_position = s.row_position ∧ s1.col_position = s.col_position ∧
      s1.key = s.key := by
  unfold Shape.rotate at h
  cases htr : transposePhase s.matrix with
  | none => rw [htr] at h; cases h
  | some g1 =>
    rw [htr] at h
    cases Option.some.inj h
    exact ⟨rfl, rfl, rfl, rfl⟩

/-- C5 (amended): a `move` that returns `false` restores the entire engine
state; a `rotate` that returns `false` restores everything except the
active shape's `rotation_state`, which stays incremented by 1 modulo 4
(`Controller.rotate` restores the snapshot of the matrix but `Shape.rotate`
already advanced the rotation counter and nothing reverts it). -/
theorem rejected_ops_restore_all_but_rotation_state
    (st st' : ControllerState) (d : String) :
    (Controller.move st d = some (false, st') → st' = st) ∧
    (Controller.rotate st = some (false, st') →
      (st.active_shape = none ∧ st' = st) ∨
      ∃ s, st.active_shape = some s ∧
        st' = { st with
                active_shape := some { s with rotation_state := (s.rotation_state + 1) % 4 } }) := by
  obtain ⟨gb, act, pts, lvl, il, trc, q⟩ := st
  constructor
  · intro h
    cases act with
    | none =>
      simp only [Controller.move] at h
      simp only [Option.some.injEq, Prod.mk.injEq, true_and] at h
      exact h.symm
    | some s =>
      obtain ⟨sm, srs, srp, scp, sk⟩ := s
      cases hdelta : moveDelta d with
      | none =>
        simp only [Controller.move, hdelta] at h
        simp only [Option.some.injEq, Prod.mk.injEq, true_and] at h
        exact h.symm
      | some dd =>
        obtain ⟨dr, dc⟩ := dd
        simp only [Controller.move, hdelta] at h
        split at h
        · split at h
          · exact Option.noConfusion h
          · simp at h
        · rename_i hcan
          split at h
          · exact Option.noConfusion h
          · rename_i b2 hb2
            simp only [Option.some.injEq, Prod.mk.injEq, true_and] at h
            rw [add_sub_cancel_right, add_sub_cancel_right] at hb2 h
            obtain ⟨hb2eq, hocc⟩ := (place_shape_some_iff _ _ _).mp hb2
            have hdims := remove_shape_dims gb ⟨sm, srs, srp, scp, sk⟩
            have hocc2 : ∀ p ∈ cellPairs sm,
                occupiedInBounds gb ⟨sm, srs, srp, scp, sk⟩ p = false := by
              intro p hp
              rw [← occupiedInBounds_congr p hdims.1 hdims.2 rfl rfl rfl]
              exact hocc p hp
            have hb1 : GameBoard.remove_shape gb ⟨sm, srs, srp, scp, sk⟩ = gb :=
              remove_shape_noop _ _ hocc2
            rw [hb1] at hb2eq
            rw [hb2eq] at h
            exact h.symm
  · intro h
    cases act with
    | none =>
      simp only [Controller.rotate] at h
      simp only [Option.some.injEq, Prod.mk.injEq, true_and] at h
      exact Or.inl ⟨rfl, h.symm⟩
    | some s =>
      obtain ⟨sm, srs, srp, scp, sk⟩ := s
      cases hrot : Shape.rotate ⟨sm, srs, srp, scp, sk⟩ with
      | none =>
        simp only [Controller.rotate, hrot] at h
        exact Option.noConfusion h
      | some s1 =>
        obtain ⟨hrs, hrp, hcp, hk⟩ := rotate_some_fields _ _ hrot
        simp only [Controller.rotate, hrot] at h
        split at h
        · split at h
          · exact Option.noConfusion h
          · simp at h
        · rename_i hcan
          split at h
          · exact Option.noConfusion h
          · rename_i b2 hb2
            simp only [Option.some.injEq, Prod.mk.injEq, true_and] at h
            rw [hrs, hrp, hcp, hk] at hb2 h
            obtain ⟨hb2eq, hocc⟩ := (place_shape_some_iff _ _ _).mp hb2
            have hdims := remove_shape_dims gb ⟨sm, srs, srp, scp, sk⟩
            have hocc2 : ∀ p ∈ cellPairs sm,
                occupiedInBounds gb ⟨sm, srs, srp, scp, sk⟩ p = false := by
              intro p hp
              rw [← occupiedInBounds_congr p hdims.1 hdims.2 rfl rfl rfl]
              exact hocc p hp
            have hb1 : GameBoard.remove_shape gb ⟨sm, srs, srp, scp, sk⟩ = gb :=
              remove_shape_noop _ _ hocc2
            rw [hb1] at hb2eq
            rw [hb2eq] at h
            exact Or.inr ⟨⟨sm, srs, srp, scp, sk⟩, rfl, h.symm⟩

/-- C5 (counterexample): at `c5_state` the rotate call returns `false` yet
the resulting engine state differs from the initial one — the active
shape's `rotation_state` has advanced from 0 to 1. -/
theorem rejected_rotate_changes_rotation_state :
    Controller.rotate c5_state = some (false, c5_rotated) ∧ c5_rotated ≠ c5_state := by
  constructor
  · decide
  · decide

/-- C5 (witness): the amended theorem applied at `c5_state`, once for a
rejected `move` (state restored exactly) and once for the rejected rotate
(state restored up to the rotation counter). -/
theorem rejected_ops_restore_witness :
    c5_state = c5_state ∧
    ((c5_state.active_shape = none ∧ c5_rotated = c5_state) ∨
      ∃ s, c5_state.active_shape = some s ∧
        c5_rotated = { c5_state with
                       active_shape := some { s with rotation_state := (s.rotation_state + 1) % 4 } }) :=
  ⟨(rejected_ops_restore_all_but_rotation_state c5_state c5_state ("left")).1 (by decide),
   (rejected_ops_restore_all_but_rotation_state c5_state c5_rotated ("left")).2 (by decide)⟩

/-- C6 (amended): `spawn_new_shape` dequeues the queue head as the active
shape without repositioning it (the head keeps the position
`Shape.__init__` gave it: row 0, column 0), appends the freshly generated
shape so the queue length is preserved, returns `false` exactly when
`can_place` rejects the head at its own position, and in that case writes
nothing to the board. -/
theorem spawn_new_shape_spec (st : ControllerState) (fresh hd : Shape) (t : List Shape)
    (hq : st.shape_queue = hd :: t) :
    (Controller.spawn_new_shape st fresh =
        some (false, { st with active_shape := some hd, shape_queue := t ++ [fresh] })
      ↔ st.game_board.can_place hd = false) ∧
    ∀ (r : Bool) (st' : ControllerState),
      Controller.spawn_new_shape st fresh = some (r, st') →
        st'.active_shape = some hd ∧ st'.shape_queue = t ++ [fresh] ∧
        st'.shape_queue.length = st.shape_queue.length ∧
        (r = false → st'.game_board = st.game_board) := by
  obtain ⟨gb, act, pts, lvl, il, trc, q⟩ := st
  simp only at hq
  subst hq
  constructor
  · cases hcan : GameBoard.can_place gb hd with
    | true =>
      simp only [Controller.spawn_new_shape, hcan]
      constructor
      · intro h
        cases hpl : GameBoard.place_shape gb hd with
        | none => rw [hpl] at h; exact Option.noConfusion h
        | some b =>
          rw [hpl] at h
          simp at h
      · intro h; exact absurd h (by decide)
    | false =>
      simp [Controller.spawn_new_shape, hcan]
  · intro r st' h
    simp only [Controller.spawn_new_shape] at h
    split at h
    · rename_i hcan
      split at h
      · exact Option.noConfusion h
      · rename_i b hpl
        obtain ⟨rfl, rfl⟩ : r = true ∧
            ({ game_board := b, active_shape := some hd, points := pts, level := lvl,
               initial_level := il, total_rows_cleared := trc,
               shape_queue := t ++ [fresh] } : ControllerState) = st' := by
          simpa using h
        simp
    · rename_i hcan
      obtain ⟨rfl, rfl⟩ : r = false ∧
          ({ game_board := gb, active_shape := some hd, points := pts, level := lvl,
             initial_level := il, total_rows_cleared := trc,
             shape_queue := t ++ [fresh] } : ControllerState) = st' := by
        simpa using h
      simp

/-- C6 (counterexample): the rejected spawn from `c6_pre` leaves the
active I piece at column 0, not at the horizontally centered column 3 that
the spec's words prescribe for a 4-wide piece on the 10-wide board. -/
theorem spawn_position_not_centered :
    Controller.spawn_new_shape c6_pre c6_fresh = some (false, c6_over) ∧
    c6_over.active_shape = some c6_I ∧
    c6_I.row_position = 0 ∧ c6_I.col_position = 0 ∧
    specCenteredCol c6_pre.game_board.num_cols 4 = 3 ∧
    c6_I.col_position ≠ specCenteredCol c6_pre.game_board.num_cols 4 := by
  refine ⟨by decide, by decide, by decide, by decide, by decide, by decide⟩

/-- C6 (witness): the amended spawn theorem applied at `c6_pre`, whose
blocked board makes the spawn return `false`. -/
theorem spawn_new_shape_spec_witness :
    Controller.spawn_new_shape c6_pre c6_fresh =
      some (false, { c6_pre with active_shape := some c6_I, shape_queue := [] ++ [c6_fresh] }) :=
  (spawn_new_shape_spec c6_pre c6_fresh c6_I [] rfl).1.mpr (by decide)

/-- C2 (counterexample): `spawn_new_shape` on `c2_pre` returns `false`
(game over), yet the very next `tick()` on the resulting state does not
return `false` — it raises (`AttributeError` in `place_shape`, after
`remove_shape` already erased the overlapped cell), so game over is not a
state in which `tick()` keeps returning `false` with the board unchanged. -/
theorem game_over_not_latched_cex :
    Controller.spawn_new_shape c2_pre c2_fresh = some (false, c2_over) ∧
    Controller.tick c2_over c2_fresh = none := by
  constructor
  · decide
  · decide

/-- C2 (amended): the engine stores no terminal flag. On the game-over
state `c2_over` the next `tick()` re-enters the normal pipeline: its
`move("down")` first calls `remove_shape`, which erases the board cell the
unplaced active shape overlaps (the grid cell holding 9 becomes 0), and
the subsequent `place_shape` raises; `tick()` does not return `false`
again. A fresh engine instance is indeed required to get a clean board. -/
theorem game_over_not_terminal :
    c2_over.game_board.grid = [[9,0],[0,0]] ∧
    (c2_over.game_board.remove_shape c2_block).grid = [[0,0],[0,0]] ∧
    Controller.move c2_over ("down") = none ∧
    Controller.tick c2_over c2_fresh = none := by
  refine ⟨by decide, by decide, by decide, by decide⟩

/-- Membership in the row-major cell enumeration. -/
lemma mem_cellPairs (m : Grid) (p : Nat × Nat) :
    p ∈ cellPairs m ↔ p.1 < m.length ∧ p.2 < (m.getD p.1 []).length := by
  obtain ⟨a, c⟩ := p
  simp only [cellPairs, List.mem_flatMap, List.mem_map, List.mem_range]
  constructor
  · rintro ⟨i, hi, j, hj, hpe⟩
    cases hpe
    exact ⟨hi, hj⟩
  · rintro ⟨h1, h2⟩
    exact ⟨a, h1, c, h2, rfl⟩

/-- C3: `can_place` returns `false` iff some occupied cell of the shape
matrix, offset by the shape position, is out of `[0, num_rows) ×
[0, num_cols)` or lands on a nonzero grid cell; otherwise it returns
`true`. The embedding is a pure function: it can mutate neither the board
nor the shape. -/
theorem can_place_false_iff (b : GameBoard) (s : Shape) :
    b.can_place s = false ↔
      ∃ ri ci : Nat, ri < s.matrix.length ∧ ci < (s.matrix.getD ri []).length ∧
        (s.matrix.getD ri []).getD ci 0 ≠ 0 ∧
        (¬(0 ≤ s.row_position + (ri : Int) ∧ s.row_position + (ri : Int) < b.num_rows ∧
            0 ≤ s.col_position + (ci : Int) ∧ s.col_position + (ci : Int) < b.num_cols) ∨
          cellAt b.grid (s.row_position + (ri : Int)) (s.col_position + (ci : Int)) ≠ 0) := by
  rw [← Bool.not_eq_true, GameBoard.can_place, List.all_eq_true]
  push_neg
  constructor
  · rintro ⟨p, hp, hpred⟩
    rw [mem_cellPairs] at hp
    refine ⟨p.1, p.2, hp.1, hp.2, ?_⟩
    simp only [occupiedInBounds, Bool.or_eq_true, Bool.not_eq_true', bne_eq_false_iff_eq,
      Bool.and_eq_true, beq_iff_eq, decide_eq_true_eq, bne_iff_ne, ne_eq] at hpred
    push_neg at hpred
    refine ⟨hpred.1, ?_⟩
    by_cases hb : 0 ≤ s.row_position + (p.1 : Int) ∧ s.row_position + (p.1 : Int) < b.num_rows ∧
        0 ≤ s.col_position + (p.2 : Int) ∧ s.col_position + (p.2 : Int) < b.num_cols
    · exact Or.inr (hpred.2 ⟨hpred.1, ⟨⟨hb.1, hb.2.1⟩, hb.2.2.1⟩, hb.2.2.2⟩)
    · refine Or.inl ?_
      intro h1 h2 h3
      by_contra h4
      push_neg at h4
      exact hb ⟨h1, h2, h3, h4⟩
  · rintro ⟨ri, ci, h1, h2, hocc, hbad⟩
    refine ⟨(ri, ci), (mem_cellPairs ..).mpr ⟨h1, h2⟩, ?_⟩
    simp only [occupiedInBounds, Bool.or_eq_true, Bool.not_eq_true', bne_eq_false_iff_eq,
      Bool.and_eq_true, beq_iff_eq, decide_eq_true_eq, bne_iff_ne, ne_eq]
    push_neg
    refine ⟨hocc, fun hcond => ?_⟩
    obtain ⟨-, ⟨⟨hr1, hr2⟩, hc1⟩, hc2⟩ := hcond
    cases hbad with
    | inl hob => exact absurd hc2 (by have := hob hr1 hr2 hc1; omega)
    | inr hcell => exact hcell

/-- An all-zero row of positive width is not full. -/
lemma fullRow_zeroRow (cols : Int) (h : 0 < cols) :
    fullRow cols (List.replicate cols.toNat 0) = false := by
  obtain ⟨n, hn⟩ : ∃ n, cols.toNat = n + 1 := ⟨cols.toNat - 1, by omega⟩
  rw [Bool.eq_false_iff]
  intro hall
  rw [fullRow, List.all_eq_true] at hall
  have h0 := hall 0 (List.mem_range.mpr (by omega))
  rw [hn, List.replicate_succ] at h0
  simp at h0

/-- Invariant description of one `clear_rows` sweep: once every row
strictly below the scan index is known not-full, the loop deletes exactly
the full rows, stacks as many fresh zero rows on top, preserves the order
of the surviving rows, and adds the number of deletions to the counter. -/
lemma clearLoop_spec (cols : Int) (hc : 0 < cols) (fuel : Nat) :
    ∀ (g : Grid) (idx1 cleared : Nat),
      idx1 ≤ g.length →
      (∀ r ∈ g.drop idx1, fullRow cols r = false) →
      idx1 + g.countP (fullRow cols) + 1 ≤ fuel →
      clearLoop cols fuel g idx1 cleared =
        some (cleared + g.countP (fullRow cols),
              List.replicate (g.countP (fullRow cols)) (List.replicate cols.toNat 0)
                ++ g.filter fun r => !(fullRow cols r)) := by
  induction fuel with
  | zero => intro g idx1 cleared _ _ hf; omega
  | succ fuel ih =>
    intro g idx1 cleared hlen hdrop hf
    match idx1 with
    | 0 =>
      have hall : ∀ r ∈ g, fullRow cols r = false := by simpa using hdrop
      have hcount : g.countP (fullRow cols) = 0 :=
        List.countP_eq_zero.mpr fun a ha => by simp [hall a ha]
      have hfilt : g.filter (fun r => !(fullRow cols r)) = g :=
        List.filter_eq_self.mpr fun a ha => by simp [hall a ha]
      rw [hcount, hfilt]
      simp [clearLoop]
    | idx + 1 =>
      have hidx : idx < g.length := by omega
      have hgetd : g.getD idx [] = g[idx] := List.getD_eq_getElem g [] hidx
      have herase : g.eraseIdx idx = g.take idx ++ g.drop (idx + 1) :=
        List.eraseIdx_eq_take_drop_succ ..
      have hsplit : g.take idx ++ g[idx] :: g.drop (idx + 1) = g := by
        rw [← List.drop_eq_getElem_cons hidx, List.take_append_drop]
      have htklen : (g.take idx).length = idx := by
        rw [List.length_take]; omega
      have hcntdrop : (g.drop (idx + 1)).countP (fullRow cols) = 0 :=
        List.countP_eq_zero.mpr fun a ha => by simp [hdrop a ha]
      have hfiltdrop : (g.drop (idx + 1)).filter (fun r => !(fullRow cols r)) =
          g.drop (idx + 1) :=
        List.filter_eq_self.mpr fun a ha => by simp [hdrop a ha]
      by_cases hful : fullRow cols g[idx] = true
      · -- full row: delete it, insert a zero row on top, re-examine the index
        have hcntg : g.countP (fullRow cols) = (g.take idx).countP (fullRow cols) + 1 := by
          conv_lhs => rw [← hsplit]
          rw [List.countP_append, List.countP_cons_of_pos _ _ hful, hcntdrop]
        have hfiltg : g.filter (fun r => !(fullRow cols r)) =
            (g.take idx).filter (fun r => !(fullRow cols r)) ++ g.drop (idx + 1) := by
          conv_lhs => rw [← hsplit]
          rw [List.filter_append, List.filter_cons_of_neg (by simp [hful]), hfiltdrop]
        set g' : Grid := List.replicate cols.toNat 0 :: g.eraseIdx idx with hg'
        have hglen : g'.length = g.length := by
          rw [hg', List.length_cons, herase, List.length_append, htklen, List.length_drop]
          omega
        have hdrop' : g'.drop (idx + 1) = g.drop (idx + 1) := by
          rw [hg', List.drop_succ_cons, herase]
          calc List.drop idx (List.take idx g ++ List.drop (idx + 1) g)
              = List.drop (List.take idx g).length
                  (List.take idx g ++ List.drop (idx + 1) g) := by rw [htklen]
            _ = List.drop (idx + 1) g := List.drop_left ..
        have hcntg' : g'.countP (fullRow cols) = (g.take idx).countP (fullRow cols) := by
          rw [hg', List.countP_cons_of_neg _ _ (by simp [fullRow_zeroRow cols hc]), herase,
              List.countP_append, hcntdrop]
          omega
        have hfiltg' : g'.filter (fun r => !(fullRow cols r)) =
            List.replicate cols.toNat 0 ::
              ((g.take idx).filter (fun r => !(fullRow cols r)) ++ g.drop (idx + 1)) := by
          rw [hg', List.filter_cons_of_pos (by simp [fullRow_zeroRow cols hc]), herase,
              List.filter_append, hfiltdrop]
        have hstep := ih g' (idx + 1) (cleared + 1) (by omega)
          (by rw [hdrop']; exact hdrop) (by omega)
        rw [clearLoop, hgetd, if_pos hful, ← hg', hstep, hcntg', hfiltg', hcntg, hfiltg,
            List.replicate_succ']
        rw [Option.some.injEq, Prod.mk.injEq]
        constructor
        · omega
        · rw [List.append_assoc, List.singleton_append]
      · -- row not full: move the index up
        have hfulf : fullRow cols g[idx] = false := by
          cases hx : fullRow cols g[idx] with
          | true => exact absurd hx hful
          | false => rfl
        have hstep := ih g idx cleared (by omega)
          (by intro r hr
              rw [List.drop_eq_getElem_cons hidx] at hr
              rcases List.mem_cons.mp hr with h | h
              · rw [h]; exact hfulf
              · exact hdrop r h)
          (by omega)
        rw [clearLoop, hgetd, if_neg (by simp [hfulf]), hstep]

/-- C7: on a board whose grid matches its declared dimensions (as every
board built by the program does) and has at least one column, `clear_rows`
returns 0 and leaves the grid unchanged when no row is full; and when the
grid consists of `front` rows (none full) above `k` full bottom rows, it
returns `k` and leaves `k` zero rows stacked above `front`, order
preserved. The bottom-to-top sweep re-examines the same index after each
deletion, so any `k` is handled in one sweep. -/
theorem clear_rows_spec (b : GameBoard)
    (hwf : b.grid.length = b.num_rows.toNat) (hc : 0 < b.num_cols) :
    ((∀ r ∈ b.grid, fullRow b.num_cols r = false) → b.clear_rows = some (0, b)) ∧
    ∀ (k : Nat) (front tl : Grid), b.grid = front ++ tl → tl.length = k →
      (∀ r ∈ tl, fullRow b.num_cols r = true) →
      (∀ r ∈ front, fullRow b.num_cols r = false) →
      b.clear_rows = some (k, { b with
        grid := List.replicate k (List.replicate b.num_cols.toNat 0) ++ front }) := by
  have hdropvac : ∀ r ∈ b.grid.drop b.num_rows.toNat, fullRow b.num_cols r = false := by
    rw [← hwf, List.drop_length]
    intro r hr
    cases hr
  constructor
  · intro hall
    have hcount : b.grid.countP (fullRow b.num_cols) = 0 :=
      List.countP_eq_zero.mpr fun a ha => by simp [hall a ha]
    have hfilt : b.grid.filter (fun r => !(fullRow b.num_cols r)) = b.grid :=
      List.filter_eq_self.mpr fun a ha => by simp [hall a ha]
    rw [GameBoard.clear_rows,
        clearLoop_spec b.num_cols hc _ b.grid b.num_rows.toNat 0
          (le_of_eq hwf.symm) hdropvac (le_refl _),
        hcount, hfilt]
    rfl
  · intro k front tl hsplit hlen htl hfront
    have hcnt : b.grid.countP (fullRow b.num_cols) = k := by
      have h1 : front.countP (fullRow b.num_cols) = 0 :=
        List.countP_eq_zero.mpr fun a ha => by simp [hfront a ha]
      have h2 : tl.countP (fullRow b.num_cols) = tl.length :=
        List.countP_eq_length.mpr fun a ha => htl a ha
      rw [hsplit, List.countP_append, h1, h2, hlen]
      omega
    have hfilt : b.grid.filter (fun r => !(fullRow b.num_cols r)) = front := by
      have h1 : front.filter (fun r => !(fullRow b.num_cols r)) = front :=
        List.filter_eq_self.mpr fun a ha => by simp [hfront a ha]
      have h2 : tl.filter (fun r => !(fullRow b.num_cols r)) = [] :=
        List.filter_eq_nil_iff.mpr fun a ha => by simp [htl a ha]
      rw [hsplit, List.filter_append, h1, h2, List.append_nil]
    rw [GameBoard.clear_rows,
        clearLoop_spec b.num_cols hc _ b.grid b.num_rows.toNat 0
          (le_of_eq hwf.symm) hdropvac (le_refl _),
        hcnt, hfilt]
    simp

/-- C7 (witness): the theorem applied at the concrete 3×2 board
`c7_board`, whose bottom two rows are full and whose top row is not:
`clear_rows` returns 2 and stacks two zero rows above the surviving row. -/
theorem clear_rows_spec_witness :
    GameBoard.clear_rows c7_board = some (2, { c7_board with grid := [[0,0],[0,0],[1,0]] }) :=
  ((clear_rows_spec c7_board rfl (by decide)).2 2 [[1,0]] [[2,2],[3,3]] rfl rfl
    (by decide) (by decide)).trans (by decide)

/-- C8: the lock-event bookkeeping of `tick()` (`update_points(k)` followed
by `update_level()`, lines 209–210 of the controller): the score grows by
exactly `table(k) × level`, with the level taken before the recomputation;
the cleared-rows total grows by `k` unconditionally; the level is then
recomputed as `total // 10 + initial_level`; and the table is
`{1: 40, 2: 100, 3: 300, 4: 1200}` with 0 for every other count. -/
theorem scoring_and_level_update_spec (st : ControllerState) (k : Int) :
    (Controller.update_level (Controller.update_points st k)).points
        = st.points + points_table k * st.level ∧
    (Controller.update_level (Controller.update_points st k)).total_rows_cleared
        = st.total_rows_cleared + k ∧
    (Controller.update_level (Controller.update_points st k)).level
        = Int.fdiv (st.total_rows_cleared + k) 10 + st.initial_level ∧
    points_table 1 = 40 ∧ points_table 2 = 100 ∧ points_table 3 = 300 ∧
    points_table 4 = 1200 ∧
    ∀ j : Int, j ≠ 1 → j ≠ 2 → j ≠ 3 → j ≠ 4 → points_table j = 0 := by
  refine ⟨rfl, rfl, rfl, rfl, rfl, rfl, rfl, ?_⟩
  intro j h1 h2 h3 h4
  simp [points_table, h1, h2, h3, h4]

/-- C8 (witness): the spec's own scenario — at level 3 a lock clearing 2
rows adds exactly `100 × 3 = 300` points — together with a non-table count
scoring 0 points. -/
theorem scoring_witness :
    (Controller.update_level (Controller.update_points c8_state 2)).points = 300 ∧
    points_table 7 = 0 := by
  have h := scoring_and_level_update_spec c8_state 2
  exact ⟨h.1.trans (by decide),
         h.2.2.2.2.2.2.2 7 (by decide) (by decide) (by decide) (by decide)⟩

/-- Every index pair the transpose loops visit is inside the square. -/
lemma mem_swapPairs (n : Nat) (p : Nat × Nat) (h : p ∈ swapPairs n) :
    p.1 < n ∧ p.2 < n := by
  simp only [swapPairs, List.mem_flatMap, List.mem_map] at h
  obtain ⟨i, hi, j, hj, rfl⟩ := h
  exact ⟨List.mem_range.mp hi, List.mem_range.mp (List.mem_of_mem_drop hj)⟩

/-- Reading a guarded cell succeeds. -/
lemma getCell_some (g : Grid) (i j : Nat) (hi : i < g.length)
    (hj : j < (g.getD i []).length) :
    getCell g i j = some ((g.getD i []).getD j 0) := by
  rw [List.getD_eq_getElem g [] hi] at hj ⊢
  rw [getCell, List.get?_eq_getElem?, List.getElem?_eq_getElem hi]
  show g[i].get? j = some (g[i].getD j 0)
  rw [List.get?_eq_getElem?, List.getElem?_eq_getElem hj, List.getD_eq_getElem _ 0 hj]

/-- Writing a guarded cell succeeds. -/
lemma setCell_some (g : Grid) (i j : Nat) (v : Int) (hi : i < g.length)
    (hj : j < (g.getD i []).length) :
    setCell g i j v = some (g.set i ((g.getD i []).set j v)) := by
  rw [List.getD_eq_getElem g [] hi] at hj ⊢
  rw [setCell, List.get?_eq_getElem?, List.getElem?_eq_getElem hi]
  show (if j < g[i].length then some (g.set i (g[i].set j v)) else none)
      = some (g.set i (g[i].set j v))
  rw [if_pos hj]

/-- One swap of the transpose loop succeeds on a square matrix and keeps
it square of the same size. -/
lemma swapStep_square (n : Nat) (g : Grid) (hlen : g.length = n)
    (hrows : ∀ r ∈ g, r.length = n) (p : Nat × Nat) (h1 : p.1 < n) (h2 : p.2 < n) :
    ∃ g', swapStep g p = some g' ∧ g'.length = n ∧ ∀ r ∈ g', r.length = n := by
  obtain ⟨i, j⟩ := p
  simp only at h1 h2
  have hgi : i < g.length := by omega
  have hgj : j < g.length := by omega
  have hleni : (g.getD i []).length = n := by
    rw [List.getD_eq_getElem g [] hgi]
    exact hrows _ (List.getElem_mem hgi)
  have hlenj : (g.getD j []).length = n := by
    rw [List.getD_eq_getElem g [] hgj]
    exact hrows _ (List.getElem_mem hgj)
  have hg1len : (g.set i ((g.getD i []).set j ((g.getD j []).getD i 0))).length = n := by
    rw [List.length_set]; exact hlen
  have hg1rows : ∀ r ∈ g.set i ((g.getD i []).set j ((g.getD j []).getD i 0)),
      r.length = n := by
    intro r hr
    rcases List.mem_or_eq_of_mem_set hr with hmem | heq
    · exact hrows r hmem
    · rw [heq, List.length_set]; exact hleni
  have hg1lenj : ((g.set i ((g.getD i []).set j ((g.getD j []).getD i 0))).getD j []).length
      = n := by
    rw [List.getD_eq_getElem _ [] (by omega)]
    exact hg1rows _ (List.getElem_mem (by omega))
  rw [swapStep]
  simp only [getCell_some g j i hgj (by omega), getCell_some g i j hgi (by omega),
    setCell_some g i j ((g.getD j []).getD i 0) hgi (by omega)]
  simp only [setCell_some (g.set i ((g.getD i []).set j ((g.getD j []).getD i 0))) j i
    ((g.getD i []).getD j 0) (by rw [List.length_set]; omega) (by rw [hg1lenj]; omega)]
  refine ⟨_, rfl, ?_, ?_⟩
  · rw [List.length_set]; exact hg1len
  · intro r hr
    rcases List.mem_or_eq_of_mem_set hr with hmem | heq
    · exact hg1rows r hmem
    · rw [heq, List.length_set]; exact hg1lenj

/-- The whole transpose loop succeeds on a square matrix. -/
lemma foldlM_swapStep_square (n : Nat) (l : List (Nat × Nat))
    (hl : ∀ p ∈ l, p.1 < n ∧ p.2 < n) :
    ∀ (g : Grid), g.length = n → (∀ r ∈ g, r.length = n) →
      ∃ g', l.foldlM swapStep g = some g' := by
  induction l with
  | nil => intro g _ _; exact ⟨g, rfl⟩
  | cons p t ih =>
    intro g hlen hrows
    obtain ⟨g1, hstep, hlen1, hrows1⟩ :=
      swapStep_square n g hlen hrows p (hl p (by simp)).1 (hl p (by simp)).2
    obtain ⟨g', hfold⟩ := ih (fun q hq => hl q (by simp [hq])) g1 hlen1 hrows1
    refine ⟨g', ?_⟩
    rw [List.foldlM_cons, hstep]
    simpa using hfold

/-- C9 (amended): the `Shape` constructor performs no squareness
validation and never raises (there is no `InvalidShapeError` anywhere in
the code), and for every square matrix `rotate` completes without raising:
the transpose swaps all stay inside the matrix. -/
theorem rotate_square_total (m : Grid) (h : ∀ row ∈ m, row.length = m.length) :
    (Shape.rotate (Shape.init m)).isSome = true := by
  obtain ⟨g', hg'⟩ := foldlM_swapStep_square m.length (swapPairs m.length)
      (fun p hp => mem_swapPairs _ p hp) m rfl h
  have ht : transposePhase (Shape.init m).matrix = some g' := hg'
  rw [Shape.rotate, ht]
  rfl

/-- C9 (counterexample): constructing a `Shape` from a non-square matrix
does not fail — `Shape.__init__` runs to completion and returns an
ordinary piece, so the square-matrix precondition is never enforced and no
`InvalidShapeError` is raised (the exception type does not even exist in
the code). -/
theorem shape_init_accepts_non_square :
    Shape.init [[1,2],[3,4],[5,6]] =
      { matrix := [[1,2],[3,4],[5,6]], rotation_state := 0, row_position := 0,
        col_position := 0, key := some 1 } := by
  decide

/-- C9 (witness): rotation of the square T piece from the `SHAPES` table
completes without raising. -/
theorem rotate_square_total_witness :
    (Shape.rotate (Shape.init [[0,3,0],[3,3,3],[0,0,0]])).isSome = true :=
  rotate_square_total [[0,3,0],[3,3,3],[0,0,0]] (by decide)

end Tetris
